import Mathlib

/-!
# Verification of `trainGraph.py` (CNN for Sentence Classification)

A shallow embedding of the sentiment-classification driver script
`trainGraph.py`.  Pure fragments of the script (sentence formatting,
thresholding, layer-graph construction, the shuffle, and the top-level
control flow) are translated into executable Lean definitions, and the
specification's claims about them are proved below.

Python dictionary lookup is modelled by `Option` (a `none` result models
a raised `KeyError`); the `raise ValueError` path is modelled by
`Except.error`.  NumPy float comparisons on probabilities are modelled
over `ℚ` (the claims are purely order-theoretic).
-/

namespace TrainGraph

/-! ## Script hyperparameter constants (lines 63-85 of `trainGraph.py`) -/

def sequence_length : Nat := 56

def embedding_dim : Nat := 20

def filter_sizes : List Nat := [3, 4]

def num_filters : Nat := 3

def dropout_prob : ℚ × ℚ := (1/4, 1/2)

def hidden_dims : Nat := 100

/-! ## Sentence formatting (`format_sentence`, lines 159-173)

`data_helpers.clean_str` lives in a repository file not under `src/`, so
the cleaning/splitting step is abstracted as a function parameter
`clean_split` standing for `data_helpers.clean_str(s).split(" ")`.
`vocabulary` is the word → index dictionary; `none` models a `KeyError`.

In Python, `num_padding = sequence_length - len(processed_sentence)` is a
(possibly negative) machine integer and `["<PAD/>"] * num_padding` is the
empty list whenever `num_padding ≤ 0`; we keep `num_padding : Int` and
take `Int.toNat` for the replication count, which coincides with that
semantics. -/

def paddedSentence (sequence_len : Nat) (processed_sentence : List String) :
    List String :=
  let num_padding : Int := (sequence_len : Int) - (processed_sentence.length : Int)
  processed_sentence ++ List.replicate num_padding.toNat "<PAD/>"

/-- The list comprehension `[vocabulary[word] for word in new_sentence]`:
looks every word up in the vocabulary, failing (as Python raises
`KeyError`) at the first word that is absent.  No default index is ever
substituted. -/
def lookupAll (vocabulary : String → Option Nat) : List String → Option (List Nat)
  | [] => some []
  | w :: ws =>
    match vocabulary w, lookupAll vocabulary ws with
    | some i, some rest => some (i :: rest)
    | _, _ => none

/-- Function `format_sentence` (lines 159-173): clean and split the sentence, pad
with `"<PAD/>"` up to `sequence_len`, then replace every token by its
vocabulary index.  The final `reshape(1, -1)` only adds a batch
dimension and is dropped; the returned list is the encoded sequence. -/
def format_sentence (clean_split : String → List String)
    (vocabulary : String → Option Nat) (sequence_len : Nat)
    (your_sentence : String) : Option (List Nat) :=
  let processed_sentence := clean_split your_sentence
  let new_sentence := paddedSentence sequence_len processed_sentence
  lookupAll vocabulary new_sentence

/-! ## Prediction thresholding (line 180) -/

/-- Line 180: `mood = "Negative" if probs < 0.5 else "Positive"`. -/
def mood (probs : ℚ) : String :=
  if probs < 1/2 then "Negative" else "Positive"

/-! ## Helper lemmas about `lookupAll` -/

theorem lookupAll_eq_none_of_mem {vocabulary : String → Option Nat}
    {l : List String} {w : String} (hmem : w ∈ l) (hnone : vocabulary w = none) :
    lookupAll vocabulary l = none := by
  induction l with
  | nil => cases hmem
  | cons a as ih =>
    rcases List.mem_cons.mp hmem with h | h
    · subst h
      simp [lookupAll, hnone]
    · have := ih h
      simp only [lookupAll, this]
      cases vocabulary a <;> rfl

theorem lookupAll_length {vocabulary : String → Option Nat} :
    ∀ {l : List String} {v : List Nat},
      lookupAll vocabulary l = some v → v.length = l.length := by
  intro l
  induction l with
  | nil =>
    intro v h
    simp [lookupAll] at h
    simp [← h]
  | cons a as ih =>
    intro v h
    simp only [lookupAll] at h
    cases ha : vocabulary a with
    | none => rw [ha] at h; exact absurd h (by simp)
    | some i =>
      rw [ha] at h
      cases hrest : lookupAll vocabulary as with
      | none => rw [hrest] at h; exact absurd h (by simp)
      | some rest =>
        rw [hrest] at h
        have hv : v = i :: rest := by
          have := h
          simp at this
          exact this.symm
        subst hv
        simp [ih hrest]

/-! ## Claim theorems: sentence formatting and thresholding -/

/-- Claim C3. For every input sentence whose cleaned token count is
strictly less than the configured sequence length, `format_sentence` pads
on the right with the reserved token `"<PAD/>"` so that the padded token
list — and hence the encoded sequence, whenever every lookup succeeds —
has length exactly `sequence_len`. -/
theorem pad_to_sequence_length (clean_split : String → List String)
    (vocabulary : String → Option Nat) (sequence_len : Nat) (s : String)
    (hshort : (clean_split s).length < sequence_len) :
    paddedSentence sequence_len (clean_split s) =
      clean_split s ++
        List.replicate (sequence_len - (clean_split s).length) "<PAD/>"
    ∧ (paddedSentence sequence_len (clean_split s)).length = sequence_len
    ∧ ∀ v, format_sentence clean_split vocabulary sequence_len s = some v →
        v.length = sequence_len := by
  have hle : (clean_split s).length ≤ sequence_len := Nat.le_of_lt hshort
  have htoNat :
      ((sequence_len : Int) - ((clean_split s).length : Int)).toNat =
        sequence_len - (clean_split s).length := by
    omega
  have hpad : paddedSentence sequence_len (clean_split s) =
      clean_split s ++
        List.replicate (sequence_len - (clean_split s).length) "<PAD/>" := by
    simp [paddedSentence, htoNat]
  have hlen : (paddedSentence sequence_len (clean_split s)).length =
      sequence_len := by
    rw [hpad]
    simp
    omega
  refine ⟨hpad, hlen, ?_⟩
  intro v hv
  have := lookupAll_length hv
  rw [hlen] at this
  exact this

/-- Claim C3 witness: a concrete two-token sentence padded to length 4. -/
theorem pad_to_sequence_length_witness :
    paddedSentence 4 ["good", "movie"] =
      ["good", "movie"] ++ List.replicate 2 "<PAD/>"
    ∧ (paddedSentence 4 ["good", "movie"]).length = 4
    ∧ ∀ v, format_sentence (fun _ => ["good", "movie"])
        (fun w => if w = "<PAD/>" then some 0 else
          if w = "good" then some 1 else if w = "movie" then some 2 else none)
        4 "good movie" = some v → v.length = 4 := by
  have h := pad_to_sequence_length (fun _ => ["good", "movie"])
    (fun w => if w = "<PAD/>" then some 0 else
      if w = "good" then some 1 else if w = "movie" then some 2 else none)
    4 "good movie" (by decide)
  exact h

/-- Claim C2. At prediction time, looking up a padded token absent from the
training vocabulary fails: `format_sentence` returns `none` (modelling
the raised `KeyError`); no out-of-vocabulary fallback index is
substituted. -/
theorem oov_lookup_fails (clean_split : String → List String)
    (vocabulary : String → Option Nat) (sequence_len : Nat) (s : String)
    (w : String) (hmem : w ∈ paddedSentence sequence_len (clean_split s))
    (hnone : vocabulary w = none) :
    format_sentence clean_split vocabulary sequence_len s = none := by
  unfold format_sentence
  exact lookupAll_eq_none_of_mem hmem hnone

/-- Claim C2 witness: predicting the out-of-vocabulary token `"ugh"`
against a vocabulary containing only `"good"`, `"movie"` and the padding
token fails. -/
theorem oov_lookup_fails_witness :
    format_sentence (fun _ => ["ugh"])
      (fun w => if w = "<PAD/>" then some 0 else
        if w = "good" then some 1 else if w = "movie" then some 2 else none)
      2 "ugh" = none := by
  exact oov_lookup_fails (fun _ => ["ugh"])
    (fun w => if w = "<PAD/>" then some 0 else
      if w = "good" then some 1 else if w = "movie" then some 2 else none)
    2 "ugh" "ugh" (by decide) (by decide)

/-- Claim C9. For every input sentence whose cleaned token count exceeds
the configured sequence length, `format_sentence` neither truncates nor
raises: the Python padding count is negative, no padding tokens are
appended, and any successfully encoded sequence keeps the sentence's full
over-length token count. -/
theorem overlength_no_truncation (clean_split : String → List String)
    (vocabulary : String → Option Nat) (sequence_len : Nat) (s : String)
    (hlong : sequence_len < (clean_split s).length) :
    ((sequence_len : Int) - ((clean_split s).length : Int) < 0)
    ∧ paddedSentence sequence_len (clean_split s) = clean_split s
    ∧ ∀ v, format_sentence clean_split vocabulary sequence_len s = some v →
        v.length = (clean_split s).length ∧ sequence_len < v.length := by
  have hneg : (sequence_len : Int) - ((clean_split s).length : Int) < 0 := by
    omega
  have htoNat : ((sequence_len : Int) - ((clean_split s).length : Int)).toNat = 0 := by
    omega
  have hpad : paddedSentence sequence_len (clean_split s) = clean_split s := by
    simp [paddedSentence, htoNat]
  refine ⟨hneg, hpad, ?_⟩
  intro v hv
  simp only [format_sentence] at hv
  rw [hpad] at hv
  have hlen := lookupAll_length hv
  exact ⟨hlen, by omega⟩

/-- Claim C9 witness: a three-token sentence against sequence length 2 is
encoded at full length 3, unpadded and untruncated. -/
theorem overlength_no_truncation_witness :
    ((2 : Int) - ((["a", "b", "c"] : List String).length : Int) < 0)
    ∧ paddedSentence 2 ["a", "b", "c"] = ["a", "b", "c"]
    ∧ ∀ v, format_sentence (fun _ => ["a", "b", "c"]) (fun _ => some 7) 2
        "a b c" = some v → v.length = (["a", "b", "c"] : List String).length
          ∧ 2 < v.length := by
  exact overlength_no_truncation (fun _ => ["a", "b", "c"]) (fun _ => some 7)
    2 "a b c" (by decide)

/-- Claim C4. The driver classifies as Positive exactly when the output
probability is ≥ 1/2 and as Negative exactly when it is < 1/2; the
boundary value 1/2 is classified Positive. -/
theorem mood_threshold (p : ℚ) :
    (mood p = "Positive" ↔ 1/2 ≤ p)
    ∧ (mood p = "Negative" ↔ p < 1/2)
    ∧ mood (1/2) = "Positive" := by
  refine ⟨⟨?_, ?_⟩, ⟨?_, ?_⟩, ?_⟩
  · intro hc
    by_contra hnot
    rw [not_le] at hnot
    simp only [mood, if_pos hnot] at hc
    exact absurd hc (by decide)
  · intro hle
    simp only [mood, if_neg (not_lt.mpr hle)]
  · intro hc
    by_contra hnot
    rw [not_lt] at hnot
    simp only [mood, if_neg (not_lt.mpr hnot)] at hc
    exact absurd hc (by decide)
  · intro hlt
    simp only [mood, if_pos hlt]
  · have hirr : ¬ (1/2 : ℚ) < 1/2 := lt_irrefl _
    simp only [mood, if_neg hirr]

/-! ## The convolutional graph subnet (lines 115-132)

The Keras functional-API calls are embedded symbolically: a `GTensor` is
the computation-graph node produced by applying a layer constructor.
Keyword arguments are carried in source order
(`nb_filter`, `filter_length`, `border_mode`, `activation`,
`subsample_length`). -/

inductive GTensor where
  | input : GTensor
  | conv1D (nb_filter filter_length : Nat) (border_mode activation : String)
      (subsample_length : Nat) (x : GTensor) : GTensor
  | maxPooling1D (pool_length : Nat) (x : GTensor) : GTensor
  | flatten (x : GTensor) : GTensor
  | merge_concat (xs : List GTensor) : GTensor

/-- One branch of the `for fsz in filter_sizes` loop (lines 117-125):
`Convolution1D(nb_filter=num_filters, filter_length=fsz,
border_mode='valid', activation='relu', subsample_length=1)` applied to
`graph_in`, then `MaxPooling1D(pool_length=2)`, then `Flatten()`. -/
def convBranch (nb_filter fsz : Nat) : GTensor :=
  .flatten (.maxPooling1D 2 (.conv1D nb_filter fsz "valid" "relu" 1 .input))

/-- The `convs` list accumulated by the loop, in iteration order of
`filter_sizes`. -/
def convsOf (nb_filter : Nat) (fszs : List Nat) : List GTensor :=
  fszs.map (convBranch nb_filter)

/-- Lines 127-130: `out = Merge(mode='concat')(convs)` when more than one
filter size is configured, else `out = convs[0]`.  `none` models the
`IndexError` Python would raise on `convs[0]` with an empty
`filter_sizes`. -/
def graphOut (nb_filter : Nat) (fszs : List Nat) : Option GTensor :=
  if fszs.length > 1 then some (.merge_concat (convsOf nb_filter fszs))
  else (convsOf nb_filter fszs)[0]?

/-- Claim C5. The model builder creates exactly one branch per filter
width, in `filter_sizes` declaration order, each a `relu` convolution
with `nb_filter` output channels of that width followed by max-pooling
with window 2 and flattening; the branches are concatenated in that same
order when more than one width is configured, and the single branch is
passed through unchanged when exactly one is. -/
theorem graph_branch_structure (nb_filter : Nat) (fszs : List Nat) :
    (convsOf nb_filter fszs).length = fszs.length
    ∧ (∀ i : Nat, (convsOf nb_filter fszs)[i]? =
        (fszs[i]?).map (fun fsz =>
          GTensor.flatten (GTensor.maxPooling1D 2
            (GTensor.conv1D nb_filter fsz "valid" "relu" 1 GTensor.input))))
    ∧ (fszs.length > 1 →
        graphOut nb_filter fszs = some (.merge_concat (convsOf nb_filter fszs)))
    ∧ (∀ fsz, fszs = [fsz] →
        graphOut nb_filter fszs = some (convBranch nb_filter fsz)) := by
  refine ⟨by simp [convsOf], ?_, ?_, ?_⟩
  · intro i
    simp only [convsOf, List.getElem?_map]
    cases fszs[i]? <;> simp [convBranch]
  · intro hgt
    simp [graphOut, hgt]
  · intro fsz hone
    subst hone
    simp [graphOut, convsOf]

/-- Claim C5 witness: the script's configuration `filter_sizes = (3, 4)`,
`num_filters = 3` concatenates the two branches in order; a singleton
configuration `(5,)` passes its branch through unchanged. -/
theorem graph_branch_structure_witness :
    graphOut num_filters filter_sizes =
      some (.merge_concat (convsOf num_filters filter_sizes))
    ∧ graphOut num_filters [5] = some (convBranch num_filters 5)
    ∧ (convsOf num_filters filter_sizes)[0]? =
        ((filter_sizes)[0]?).map (fun fsz =>
          GTensor.flatten (GTensor.maxPooling1D 2
            (GTensor.conv1D num_filters fsz "valid" "relu" 1 GTensor.input))) :=
  ⟨(graph_branch_structure num_filters filter_sizes).2.2.1 (by decide),
   (graph_branch_structure num_filters [5]).2.2.2 5 rfl,
   (graph_branch_structure num_filters filter_sizes).2.1 0⟩

/-! ## Top-level control flow of the script

The script's side-effecting steps are modelled as an event trace, in the
order the interpreter executes the statements of `trainGraph.py`.  A
`raise` aborts the script: the trace stops and the error message is
returned. -/

inductive Event where
  | loadData      -- line 92:  data_helpers.load_data()
  | trainW2V      -- line 95:  train_word2vec(...)
  | staticSubst   -- line 97:  x = embedding_weights[0][x]
  | shuffleData   -- lines 104-106
  | buildModel    -- lines 115-147
  | loadWeights   -- line 151: model.load_weights(weights_file)
  | fitModel      -- line 153: model.fit(...)
  | saveWeights   -- line 156: model.save_weights(..., overwrite=True)
  | predictModel  -- lines 177-181
deriving DecidableEq, Repr

/-- Lines 94-101: the `model_variation` dispatch.  Known variations
produce their word2vec / substitution events; anything else raises
`ValueError('Unknown model variation')`. -/
def variationEvents (model_variation : String) : Except String (List Event) :=
  if model_variation == "CNN-non-static" || model_variation == "CNN-static" then
    .ok (if model_variation == "CNN-static" then [.trainW2V, .staticSubst]
         else [.trainW2V])
  else if model_variation == "CNN-rand" then .ok []
  else .error "Unknown model variation"

/-- Lines 150-156: the training gate.  Training is skipped (weights
loaded) exactly when `ACTION == "predict"` and the weights file exists;
otherwise the model is fitted and the weights are saved with
`overwrite=True`. -/
def trainingGateEvents (ACTION : String) (weightsFileExists : Bool) : List Event :=
  if ACTION == "predict" && weightsFileExists then [.loadWeights]
  else [.fitModel, .saveWeights]

/-- Lines 176-181: prediction happens exactly when `ACTION == "predict"`. -/
def predictGateEvents (ACTION : String) : List Event :=
  if ACTION == "predict" then [.predictModel] else []

/-- The whole script run: data loading, variation dispatch (which may
abort), shuffle, model construction, the training gate, and the
prediction gate, in statement order. -/
def scriptRun (model_variation ACTION : String) (weightsFileExists : Bool) :
    List Event × Option String :=
  match variationEvents model_variation with
  | .error e => ([Event.loadData], some e)
  | .ok evs =>
      (Event.loadData :: evs
        ++ [Event.shuffleData, Event.buildModel]
        ++ trainingGateEvents ACTION weightsFileExists
        ++ predictGateEvents ACTION, none)

/-- The three variation strings the script recognises. -/
def knownVariations : List String := ["CNN-rand", "CNN-non-static", "CNN-static"]

theorem variationEvents_ok_of_known {v : String} (h : v ∈ knownVariations) :
    ∃ evs, variationEvents v = .ok evs := by
  simp only [knownVariations, List.mem_cons, List.mem_singleton] at h
  rcases h with h | h | h | h
  · exact ⟨[], by subst h; rfl⟩
  · exact ⟨[.trainW2V], by subst h; rfl⟩
  · exact ⟨[.trainW2V, .staticSubst], by subst h; rfl⟩
  · cases h

/-- Claim C1. With a recognised model variation (so that the script reaches
the training gate), training is skipped exactly when the action is
`"predict"` and the weights file exists — in which case the weights are
loaded; in every other case the script fits the model and then saves the
weights to that path. -/
theorem training_skip_iff (v ACTION : String) (weightsFileExists : Bool)
    (hknown : v ∈ knownVariations) :
    (Event.fitModel ∉ (scriptRun v ACTION weightsFileExists).1 ↔
      (ACTION = "predict" ∧ weightsFileExists = true))
    ∧ ((ACTION = "predict" ∧ weightsFileExists = true) →
        Event.loadWeights ∈ (scriptRun v ACTION weightsFileExists).1)
    ∧ (¬ (ACTION = "predict" ∧ weightsFileExists = true) →
        [Event.fitModel, Event.saveWeights].Sublist
          (scriptRun v ACTION weightsFileExists).1
        ∧ Event.loadWeights ∉ (scriptRun v ACTION weightsFileExists).1) := by
  have hmem : v = "CNN-rand" ∨ v = "CNN-non-static" ∨ v = "CNN-static" := by
    simpa [knownVariations] using hknown
  by_cases ha : ACTION = "predict"
  · subst ha
    cases weightsFileExists with
    | true =>
      rcases hmem with h | h | h <;> subst h <;>
        exact ⟨⟨fun _ => ⟨rfl, rfl⟩, fun _ => by decide⟩, fun _ => by decide,
          fun hc => absurd ⟨rfl, rfl⟩ hc⟩
    | false =>
      rcases hmem with h | h | h <;> subst h <;>
        exact ⟨⟨fun hni => absurd (by decide) hni, fun hc => absurd hc.2 (by decide)⟩,
          fun hc => absurd hc.2 (by decide), fun _ => ⟨by decide, by decide⟩⟩
  · have hbeq : (ACTION == "predict") = false := beq_eq_false_iff_ne.mpr ha
    have hg : trainingGateEvents ACTION weightsFileExists =
        [.fitModel, .saveWeights] := by
      simp [trainingGateEvents, hbeq]
    have hp : predictGateEvents ACTION = [] := by
      simp [predictGateEvents, hbeq]
    rcases hmem with h | h | h <;> subst h <;>
      refine ⟨⟨fun hni => absurd ?_ hni, fun hc => absurd hc.1 ha⟩,
        fun hc => absurd hc.1 ha, fun _ => ⟨?_, ?_⟩⟩ <;>
      simp [scriptRun, variationEvents, hg, hp] <;> decide

/-- Claim C1 witness: with variation `CNN-rand`: action `"predict"` with an
existing weights file loads weights without fitting; action `"train"`
fits then saves. -/
theorem training_skip_iff_witness :
    (Event.fitModel ∉ (scriptRun "CNN-rand" "predict" true).1 ↔
      ("predict" = "predict" ∧ true = true))
    ∧ [Event.fitModel, Event.saveWeights].Sublist
        (scriptRun "CNN-rand" "train" false).1 :=
  ⟨(training_skip_iff "CNN-rand" "predict" true (by decide)).1,
   ((training_skip_iff "CNN-rand" "train" false (by decide)).2.2 (by simp)).1⟩

/-- Claim C6. An unrecognised `model_variation` aborts the script with
`ValueError('Unknown model variation')` immediately after data loading:
the trace contains only the data-loading event — no shuffling, model
construction, training, weight persisting, or prediction. -/
theorem unknown_variation_error (v ACTION : String) (weightsFileExists : Bool)
    (hunknown : v ∉ knownVariations) :
    scriptRun v ACTION weightsFileExists =
      ([Event.loadData], some "Unknown model variation")
    ∧ Event.shuffleData ∉ (scriptRun v ACTION weightsFileExists).1
    ∧ Event.buildModel ∉ (scriptRun v ACTION weightsFileExists).1
    ∧ Event.fitModel ∉ (scriptRun v ACTION weightsFileExists).1
    ∧ Event.saveWeights ∉ (scriptRun v ACTION weightsFileExists).1
    ∧ Event.predictModel ∉ (scriptRun v ACTION weightsFileExists).1 := by
  have h1 : ¬ v = "CNN-rand" := fun h => hunknown (by simp [knownVariations, h])
  have h2 : ¬ v = "CNN-non-static" := fun h => hunknown (by simp [knownVariations, h])
  have h3 : ¬ v = "CNN-static" := fun h => hunknown (by simp [knownVariations, h])
  have herr : variationEvents v = .error "Unknown model variation" := by
    simp [variationEvents, h1, h2, h3]
  have hrun : scriptRun v ACTION weightsFileExists =
      ([Event.loadData], some "Unknown model variation") := by
    simp [scriptRun, herr]
  refine ⟨hrun, ?_, ?_, ?_, ?_, ?_⟩ <;> · rw [hrun]; decide

/-- Claim C6 witness: the misspelled variation `"CNN-Rand"` aborts before
shuffling. -/
theorem unknown_variation_error_witness :
    scriptRun "CNN-Rand" "train" false =
      ([Event.loadData], some "Unknown model variation")
    ∧ Event.shuffleData ∉ (scriptRun "CNN-Rand" "train" false).1 :=
  ⟨(unknown_variation_error "CNN-Rand" "train" false (by decide)).1,
   (unknown_variation_error "CNN-Rand" "train" false (by decide)).2.1⟩

/-- Claim C10. With a recognised variation: when the action is `"predict"`
but the weights file does not exist, the script trains, persists the new
weights, and then predicts, in that order within the same run; when the
action is not `"predict"`, the script always trains and saves (even if a
weights file exists) and never predicts. -/
theorem predict_gate_behavior (v ACTION : String) (weightsFileExists : Bool)
    (hknown : v ∈ knownVariations) :
    (ACTION = "predict" → weightsFileExists = false →
        [Event.fitModel, Event.saveWeights, Event.predictModel].Sublist
          (scriptRun v ACTION weightsFileExists).1)
    ∧ (ACTION ≠ "predict" →
        [Event.fitModel, Event.saveWeights].Sublist
          (scriptRun v ACTION weightsFileExists).1
        ∧ Event.predictModel ∉ (scriptRun v ACTION weightsFileExists).1) := by
  have hmem : v = "CNN-rand" ∨ v = "CNN-non-static" ∨ v = "CNN-static" := by
    simpa [knownVariations] using hknown
  constructor
  · intro ha hw
    subst ha
    subst hw
    rcases hmem with h | h | h <;> subst h <;> decide
  · intro ha
    have hbeq : (ACTION == "predict") = false := beq_eq_false_iff_ne.mpr ha
    have hg : trainingGateEvents ACTION weightsFileExists =
        [.fitModel, .saveWeights] := by
      simp [trainingGateEvents, hbeq]
    have hp : predictGateEvents ACTION = [] := by
      simp [predictGateEvents, hbeq]
    rcases hmem with h | h | h <;> subst h <;>
      refine ⟨?_, ?_⟩ <;> simp [scriptRun, variationEvents, hg, hp] <;> decide

/-- Claim C10 witness: with variation `CNN-rand`, predicting with no
weights file trains, saves, then predicts; the `"train"` action trains
and saves but never predicts. -/
theorem predict_gate_behavior_witness :
    [Event.fitModel, Event.saveWeights, Event.predictModel].Sublist
      (scriptRun "CNN-rand" "predict" false).1
    ∧ Event.predictModel ∉ (scriptRun "CNN-rand" "train" true).1 :=
  ⟨(predict_gate_behavior "CNN-rand" "predict" false (by decide)).1 rfl rfl,
   ((predict_gate_behavior "CNN-rand" "train" true (by decide)).2 (by decide)).2⟩

/-! ## Embedding preparation (lines 94-99) and the sequential model
(lines 135-145)

`train_word2vec` lives in `w2v.py`, a repository file not under `src/`;
its returned weight structure is abstracted as a parameter `W` (the
pretrained matrix), with `embedding_weights = [W]` mirroring the Python
list whose element `[0]` is indexed at line 97. -/

inductive XData where
  | indices (x : List (List Nat)) : XData
  | vectors (x : List (List (List ℚ))) : XData

/-- Line 97: `x = embedding_weights[0][x]` — every token index in every
sequence is replaced by its row of the pretrained matrix. -/
def staticSubstitute (W : List (List ℚ)) (x : List (List Nat)) :
    List (List (List ℚ)) :=
  x.map (fun seq => seq.map (fun idx => W.getD idx []))

/-- Lines 94-101: the variation dispatch over the data and weights.
`CNN-non-static` and `CNN-static` train word2vec and keep
`embedding_weights = [W]`; `CNN-static` additionally substitutes the
vectors into `x`; `CNN-rand` sets `embedding_weights = None`; anything
else raises. -/
def prepareEmbedding (model_variation : String) (W : List (List ℚ))
    (x : List (List Nat)) :
    Except String (XData × Option (List (List (List ℚ)))) :=
  if model_variation == "CNN-non-static" || model_variation == "CNN-static" then
    let embedding_weights := [W]
    if model_variation == "CNN-static" then
      .ok (.vectors (staticSubstitute W x), some embedding_weights)
    else
      .ok (.indices x, some embedding_weights)
  else if model_variation == "CNN-rand" then
    .ok (.indices x, none)
  else
    .error "Unknown model variation"

/-- A layer of the sequential model.  `weights = none` on an `embedding`
layer models Keras's random initialization (`weights=None`);
`trainable` records Keras's default `trainable=True`, which the script
never overrides. -/
inductive SLayer where
  | embedding (input_dim output_dim input_length : Nat)
      (weights : Option (List (List (List ℚ)))) (trainable : Bool) : SLayer
  | dropout (p : ℚ) : SLayer
  | graphLayer (g : Option GTensor) : SLayer
  | dense (output_dim : Nat) : SLayer
  | activation (name : String) : SLayer

def isEmbedding : SLayer → Bool
  | .embedding _ _ _ _ _ => true
  | _ => false

/-- Lines 135-145: the sequential model.  The `Embedding` layer is added
exactly when `not model_variation == 'CNN-static'`; then dropout, the
convolution graph, a dense hidden layer, dropout, relu, a dense scalar
output, and sigmoid. -/
def modelLayers (model_variation : String) (vocab_size : Nat)
    (embedding_weights : Option (List (List (List ℚ)))) : List SLayer :=
  (if ¬ (model_variation == "CNN-static") then
    [SLayer.embedding vocab_size embedding_dim sequence_length
      embedding_weights true]
  else []) ++
  [SLayer.dropout dropout_prob.1,
   SLayer.graphLayer (graphOut num_filters filter_sizes),
   SLayer.dense hidden_dims,
   SLayer.dropout dropout_prob.2,
   SLayer.activation "relu",
   SLayer.dense 1,
   SLayer.activation "sigmoid"]

/-- The variation-dependent part of the script's model assembly: prepare
the data and embedding weights, then lay out the sequential model. -/
def buildModel (model_variation : String) (W : List (List ℚ))
    (x : List (List Nat)) (vocab_size : Nat) :
    Except String (XData × List SLayer) :=
  match prepareEmbedding model_variation W x with
  | .error e => .error e
  | .ok (xd, embedding_weights) =>
      .ok (xd, modelLayers model_variation vocab_size embedding_weights)

/-- Claim C8. The assembled model contains an embedding layer iff the
variation is not `CNN-static`; for `CNN-static` the token-index
sequences are replaced by their pretrained vectors before training; for
`CNN-non-static` the pretrained matrix initializes a trainable embedding
layer; for `CNN-rand` the embedding layer gets no pretrained weights
(random initialization). -/
theorem embedding_layer_iff_not_static (v : String) (W : List (List ℚ))
    (x : List (List Nat)) (vocab_size : Nat) (hknown : v ∈ knownVariations) :
    ∃ xd layers, buildModel v W x vocab_size = .ok (xd, layers)
    ∧ ((∃ l ∈ layers, isEmbedding l = true) ↔ v ≠ "CNN-static")
    ∧ (v = "CNN-static" → xd = .vectors (staticSubstitute W x))
    ∧ (v = "CNN-non-static" → xd = .indices x ∧
        layers.head? = some (.embedding vocab_size embedding_dim
          sequence_length (some [W]) true))
    ∧ (v = "CNN-rand" → xd = .indices x ∧
        layers.head? = some (.embedding vocab_size embedding_dim
          sequence_length none true)) := by
  have hmem : v = "CNN-rand" ∨ v = "CNN-non-static" ∨ v = "CNN-static" := by
    simpa [knownVariations] using hknown
  rcases hmem with h | h | h <;> subst h <;>
    refine ⟨_, _, rfl, ?_, ?_, ?_, ?_⟩ <;>
    simp [buildModel, prepareEmbedding, modelLayers, isEmbedding]

/-- Claim C8 witness: the three variations instantiated on a one-row
matrix and a one-sequence dataset. -/
theorem embedding_layer_iff_not_static_witness :
    (∃ xd layers, buildModel "CNN-rand" [[1]] [[0]] 2 = .ok (xd, layers)
      ∧ ((∃ l ∈ layers, isEmbedding l = true) ↔ "CNN-rand" ≠ "CNN-static")
      ∧ ("CNN-rand" = "CNN-static" →
          xd = .vectors (staticSubstitute [[1]] [[0]]))
      ∧ ("CNN-rand" = "CNN-non-static" → xd = .indices [[0]] ∧
          layers.head? = some (.embedding 2 embedding_dim
            sequence_length (some [[[1]]]) true))
      ∧ ("CNN-rand" = "CNN-rand" → xd = .indices [[0]] ∧
          layers.head? = some (.embedding 2 embedding_dim
            sequence_length none true)))
    ∧ (∃ xd layers, buildModel "CNN-static" [[1]] [[0]] 2 = .ok (xd, layers)
      ∧ ((∃ l ∈ layers, isEmbedding l = true) ↔ "CNN-static" ≠ "CNN-static")
      ∧ ("CNN-static" = "CNN-static" →
          xd = .vectors (staticSubstitute [[1]] [[0]]))
      ∧ ("CNN-static" = "CNN-non-static" → xd = .indices [[0]] ∧
          layers.head? = some (.embedding 2 embedding_dim
            sequence_length (some [[[1]]]) true))
      ∧ ("CNN-static" = "CNN-rand" → xd = .indices [[0]] ∧
          layers.head? = some (.embedding 2 embedding_dim
            sequence_length none true))) :=
  ⟨embedding_layer_iff_not_static "CNN-rand" [[1]] [[0]] 2 (by decide),
   embedding_layer_iff_not_static "CNN-static" [[1]] [[0]] 2 (by decide)⟩

/-! ## The pre-training shuffle (lines 55 and 104-106) -/

/-- Modelled from the spec: NumPy's seeded RNG — `np.random.seed(2)` at
line 55 followed by `np.random.permutation(np.arange(len(y)))` at line
104 — is library code outside this repository.  The spec requires only
that the permutation be a deterministic function of the seed and a
permutation of the index range `0..n-1`; we model it as such a
function. -/
def npPermutation (seed n : Nat) : List Nat :=
  (List.range n).rotate (seed % (n + 1))

theorem npPermutation_perm (seed n : Nat) :
    (npPermutation seed n).Perm (List.range n) :=
  List.rotate_perm (List.range n) (seed % (n + 1))

/-- Models `np.argmax` on a label row (line 106, `argmax(axis=1)`): the index
of the first maximal entry, NumPy's tie-breaking rule. -/
def npArgmax (row : List Nat) : Nat :=
  (row.foldl
    (fun acc v =>
      if acc.1 < v then (v, acc.2.2, acc.2.2 + 1)
      else (acc.1, acc.2.1, acc.2.2 + 1))
    (0, 0, 0)).2.1

/-- Lines 104-106: `x_shuffled = x[shuffle_indices]` and
`y_shuffled = y[shuffle_indices].argmax(axis=1)` — the same index
permutation fancy-indexes both arrays, and the one-hot labels collapse
to class indices. -/
def shuffleStep (seed : Nat) (x : List (List Nat)) (y : List (List Nat)) :
    List (List Nat) × List Nat :=
  let shuffle_indices := npPermutation seed y.length
  (shuffle_indices.map (fun i => x.getD i []),
   shuffle_indices.map (fun i => npArgmax (y.getD i [])))

/-- Modelled from the spec: `model.fit(..., validation_split=val_split)`
holds out a fixed trailing fraction of the (already shuffled) data —
train on the first `⌊n·(1 - val_split)⌋` samples, validate on the
rest. -/
def kerasSplit (val_split : ℚ) (l : List (List Nat)) :
    List (List Nat) × List (List Nat) :=
  let split_at := (Int.floor ((1 - val_split) * (l.length : ℚ))).toNat
  (l.take split_at, l.drop split_at)

theorem range_map_getD_zip (x y : List (List Nat))
    (hlen : x.length = y.length) :
    (List.range y.length).map
        (fun i => (x.getD i [], npArgmax (y.getD i []))) =
      x.zip (y.map npArgmax) := by
  apply List.ext_getElem
  · simp [hlen]
  · intro i h1 h2
    have hix : i < x.length := by simpa [hlen] using h1
    have hiy : i < y.length := by simpa using h1
    simp [List.getElem_map, List.getElem_range, List.getElem_zip,
      List.getD_eq_getElem, hix, hiy]

/-- Claim C7. The pre-training shuffle applies one single permutation of
the index range to both the sequences and the labels — pointwise, and so
every (sequence, collapsed-label) pairing is preserved as a permutation
of the original pairs — and, the seed being fixed, two runs on the same
data produce the identical permutation, the identical shuffled arrays,
and the identical train/validation split. -/
theorem shuffle_single_permutation (seed : Nat) (x y : List (List Nat))
    (hlen : x.length = y.length) :
    (∀ k : Nat,
      ((shuffleStep seed x y).1)[k]? =
        ((npPermutation seed y.length)[k]?).map (fun i => x.getD i [])
      ∧ ((shuffleStep seed x y).2)[k]? =
        ((npPermutation seed y.length)[k]?).map
          (fun i => npArgmax (y.getD i [])))
    ∧ (npPermutation seed y.length).Perm (List.range y.length)
    ∧ ((shuffleStep seed x y).1.zip (shuffleStep seed x y).2).Perm
        (x.zip (y.map npArgmax))
    ∧ (∀ seed2 (x2 y2 : List (List Nat)) (val_split : ℚ),
        seed2 = seed → x2 = x → y2 = y →
        npPermutation seed2 y2.length = npPermutation seed y.length
        ∧ shuffleStep seed2 x2 y2 = shuffleStep seed x y
        ∧ kerasSplit val_split (shuffleStep seed2 x2 y2).1 =
            kerasSplit val_split (shuffleStep seed x y).1)
    ∧ (∀ val_split : ℚ,
        (kerasSplit val_split (shuffleStep seed x y).1).1 ++
          (kerasSplit val_split (shuffleStep seed x y).1).2 =
          (shuffleStep seed x y).1) := by
  refine ⟨?_, npPermutation_perm seed y.length, ?_, ?_, ?_⟩
  · intro k
    constructor <;> simp [shuffleStep]
  · have hzip : (shuffleStep seed x y).1.zip (shuffleStep seed x y).2 =
        (npPermutation seed y.length).map
          (fun i => (x.getD i [], npArgmax (y.getD i []))) := by
      simp [shuffleStep, List.zip_map']
    rw [hzip, ← range_map_getD_zip x y hlen]
    exact (npPermutation_perm seed y.length).map _
  · intro seed2 x2 y2 val_split h1 h2 h3
    subst h1; subst h2; subst h3
    exact ⟨rfl, rfl, rfl⟩
  · intro val_split
    exact List.take_append_drop _ _

/-- Claim C7 witness: a concrete two-element dataset with one-hot labels;
the shuffled pairs are a permutation of the originals and the split is a
decomposition of the shuffled data. -/
theorem shuffle_single_permutation_witness :
    ((shuffleStep 2 [[5], [6]] [[1, 0], [0, 1]]).1.zip
        (shuffleStep 2 [[5], [6]] [[1, 0], [0, 1]]).2).Perm
      ([[5], [6]].zip ([[1, 0], [0, 1]].map npArgmax))
    ∧ (npPermutation 2 ([[1, 0], [0, 1]] : List (List Nat)).length).Perm
        (List.range ([[1, 0], [0, 1]] : List (List Nat)).length) :=
  ⟨(shuffle_single_permutation 2 [[5], [6]] [[1, 0], [0, 1]] rfl).2.2.1,
   (shuffle_single_permutation 2 [[5], [6]] [[1, 0], [0, 1]] rfl).2.1⟩

end TrainGraph
